import Mathlib

/-!
# Verification of the J.A.R.V.I.S. interface audio/session core

Shallow embedding of the audio-streaming core of `src/App.tsx` (and the data
model of `src/types.ts`): the playback scheduler driven by the live-session
`onmessage` handler, the interruption handler, the buffer `onended` handler,
the capture-side loudness estimate from `onaudioprocess`, the `addLog` capped
log, and the `startSession` / `stopSession` lifecycle operations.

Times and durations on the audio clock are modelled as rationals; the
loudness computation (which uses a square root) is modelled over the reals.
-/

namespace Jarvis

/-! ## Data model (`src/types.ts`)

`LogEntry.sender` is `'JARVIS' | 'USER' | 'SYSTEM'`; the spec's ASSISTANT
sender is the `JARVIS` variant. -/

inductive Sender where
  | jarvis
  | user
  | system
deriving DecidableEq, Repr

structure LogEntry where
  id : String
  timestamp : String
  sender : Sender
  text : String
deriving DecidableEq, Repr

/-! ## Playback scheduler state

`App.tsx` keeps `nextStartTimeRef : number`, `sourcesRef : Set<AudioBufferSourceNode>`
and the `isJarvisSpeaking` flag.  Buffer source nodes are identified by
natural-number ids. -/

structure PlaybackState where
  nextStartTime : ℚ
  sources : Finset ℕ
  isJarvisSpeaking : Bool
deriving DecidableEq

/-- The audio-chunk branch of `onmessage` (App.tsx lines 117–136): given the
output clock's current time `t` and the decoded buffer's duration `d`, set
the speaking flag, clamp the cursor up to the clock
(`nextStartTime = max(nextStartTime, currentTime)`), start the new source at
the clamped cursor, advance the cursor by the duration, and add the source
(with fresh id `sid`) to the active set.  Returns the new state together with
the scheduled start time passed to `source.start`. -/
def handleAudioChunk (st : PlaybackState) (t d : ℚ) (sid : ℕ) :
    PlaybackState × ℚ :=
  let s := max st.nextStartTime t
  ({ nextStartTime := s + d
     sources := insert sid st.sources
     isJarvisSpeaking := true }, s)

/-- The interruption branch of `onmessage` (App.tsx lines 138–145): stop every
source in the active set (stop failures are swallowed by the `try/catch`),
clear the set, reset the cursor to `0`, clear the speaking flag.  Returns the
new state together with the set of sources on which `stop()` was called. -/
def handleInterrupted (st : PlaybackState) : PlaybackState × Finset ℕ :=
  ({ nextStartTime := 0, sources := ∅, isJarvisSpeaking := false }, st.sources)

/-- The `source.onended` handler (App.tsx lines 128–131): delete the finished
source from the active set; if the set is then empty, clear the speaking
flag (otherwise the flag is left untouched). -/
def handleEnded (st : PlaybackState) (sid : ℕ) : PlaybackState :=
  let ss := st.sources.erase sid
  { st with
    sources := ss
    isJarvisSpeaking := if ss = ∅ then false else st.isJarvisSpeaking }

/-- Start times produced by delivering a sequence of chunks to the playback
handler: each list element is `(clock time at the call, decoded duration)`,
and `c` is the cursor value before the first chunk.  Each step is one
`handleAudioChunk` call; only the cursor influences scheduling. -/
def schedStarts (c : ℚ) : List (ℚ × ℚ) → List ℚ
  | [] => []
  | td :: rest =>
    let p := handleAudioChunk ⟨c, ∅, false⟩ td.1 td.2 0
    p.2 :: schedStarts p.1.nextStartTime rest

/-- Successive values of the `nextStartTime` cursor while the chunk sequence
of `schedStarts` is delivered (the head is the initial cursor). -/
def schedCursors (c : ℚ) : List (ℚ × ℚ) → List ℚ
  | [] => [c]
  | td :: rest =>
    let p := handleAudioChunk ⟨c, ∅, false⟩ td.1 td.2 0
    c :: schedCursors p.1.nextStartTime rest

/-! ## Session lifecycle and app-level state

`App.tsx` keeps three nullable resource refs (`sessionRef`, `audioCtxInRef`,
`audioCtxOutRef`, modelled as `Bool`: `true` = non-null) beside the React
state (`isActive`, `isConnecting`, `statusText`, `userVol`,
`isJarvisSpeaking`) and the playback cursor `nextStartTimeRef`. -/

structure AppState where
  session : Bool
  ctxIn : Bool
  ctxOut : Bool
  isActive : Bool
  isConnecting : Bool
  statusText : String
  userVol : ℚ
  isJarvisSpeaking : Bool
  nextStartTime : ℚ
deriving DecidableEq, Repr

/-- The synchronous entry of `startSession` (App.tsx lines 64–67): when
`isConnecting` is set the call returns at once (no connection attempt,
`false`); otherwise it sets `isConnecting`, switches the status text and
proceeds into the connection attempt (`true`).  This is everything the
function does before its first suspension point; the guard inspects only
`isConnecting`. -/
def startSessionEntry (st : AppState) : AppState × Bool :=
  if st.isConnecting then (st, false)
  else
    ({ st with
        isConnecting := true
        statusText := "CALIBRATING NEURAL LINK..." }, true)

/-- The app state right after a successful `onopen` callback (App.tsx lines
82–86): status `"ONLINE"`, `isActive` set, `isConnecting` cleared, all three
resource refs populated.  This is the spec's `Open` session state. -/
def openState : AppState :=
  { session := true
    ctxIn := true
    ctxOut := true
    isActive := true
    isConnecting := false
    statusText := "ONLINE"
    userVol := 0
    isJarvisSpeaking := false
    nextStartTime := 0 }

/-- Which resources `stopSession` closes, in program order. -/
inductive CloseEvent where
  | closeSession
  | closeCtxIn
  | closeCtxOut
deriving DecidableEq, Repr

/-- `stopSession` (App.tsx lines 181–192): optional-chained `close()` on the
session ref, then the capture context, then the playback context (a null ref
is skipped); all three refs are nulled; `isActive`, `isConnecting`,
`isJarvisSpeaking` are cleared and `userVol` is zeroed.  `statusText` and
`nextStartTimeRef` are not written by this function.  Returns the new state
and the ordered list of `close()` calls made. -/
def stopSession (st : AppState) : AppState × List CloseEvent :=
  ({ st with
      session := false
      ctxIn := false
      ctxOut := false
      isActive := false
      isConnecting := false
      userVol := 0
      isJarvisSpeaking := false },
   (if st.session then [CloseEvent.closeSession] else []) ++
     (if st.ctxIn then [CloseEvent.closeCtxIn] else []) ++
     (if st.ctxOut then [CloseEvent.closeCtxOut] else []))

/-- The spec's `Idle`/closed session state: all resource references null and
the local state at its defaults. -/
def IdleState (st : AppState) : Prop :=
  st.session = false ∧ st.ctxIn = false ∧ st.ctxOut = false ∧
    st.isActive = false ∧ st.isConnecting = false ∧
    st.userVol = 0 ∧ st.isJarvisSpeaking = false ∧ st.nextStartTime = 0

instance (st : AppState) : Decidable (IdleState st) := by
  unfold IdleState
  infer_instance

/-! ## Interaction log -/

/-- `addLog` (App.tsx lines 36–44): `setLogs(prev => [...prev.slice(-30), entry])`
— keep the last (at most) 30 previous entries and append the new one.  The
entry's `id` and `timestamp` are produced by the caller's environment and are
taken here as arguments. -/
def addLog (logs : List LogEntry) (e : LogEntry) : List LogEntry :=
  logs.drop (logs.length - 30) ++ [e]

/-- The guard `if (text.trim())` of the transcription branch: the trimmed
string is truthy (non-empty) exactly when the text contains a character that
is not whitespace. -/
def hasContent (text : String) : Bool :=
  text.data.any fun c => !c.isWhitespace

/-- The output-transcription branch of `onmessage` (App.tsx lines 108–114):
`if (text.trim()) { addLog('JARVIS', text) }` — the entry (with the untrimmed
text) is appended only when the trimmed text is non-empty. -/
def handleTranscription (logs : List LogEntry) (newId ts text : String) :
    List LogEntry :=
  if hasContent text then
    addLog logs { id := newId, timestamp := ts, sender := Sender.jarvis, text := text }
  else logs

/-! ## Capture-side loudness estimate -/

/-- Sum of squared samples (the loop in `onaudioprocess`, App.tsx lines
94–95). -/
def sumSq (input : List ℝ) : ℝ :=
  (input.map fun x => x * x).sum

/-- `rms = Math.sqrt(sum / input.length)` (App.tsx line 96). -/
noncomputable def rms (input : List ℝ) : ℝ :=
  Real.sqrt (sumSq input / input.length)

/-- The published loudness `Math.min(1, rms * 15)` (App.tsx line 97). -/
noncomputable def loudness (input : List ℝ) : ℝ :=
  min 1 (rms input * 15)

/-! ## Theorems -/

theorem schedStarts_length (c : ℚ) (chunks : List (ℚ × ℚ)) :
    (schedStarts c chunks).length = chunks.length := by
  induction chunks generalizing c with
  | nil => rfl
  | cons td rest ih => simp [schedStarts, ih]

theorem schedCursors_head (c : ℚ) (chunks : List (ℚ × ℚ)) :
    (schedCursors c chunks).head? = some c := by
  cases chunks <;> rfl

theorem schedStarts_no_overlap (c : ℚ) (chunks : List (ℚ × ℚ)) (i : ℕ)
    (hi : i + 1 < chunks.length) :
    (schedStarts c chunks).getD i 0 + (chunks.getD i (0, 0)).2 ≤
      (schedStarts c chunks).getD (i + 1) 0 := by
  induction chunks generalizing c i with
  | nil => simp at hi
  | cons td rest ih =>
    cases i with
    | zero =>
      cases rest with
      | nil => simp at hi
      | cons td2 rest2 =>
        simp only [schedStarts, handleAudioChunk, List.getD_cons_zero,
          List.getD_cons_succ]
        exact le_max_left _ _
    | succ j =>
      simp only [schedStarts, List.getD_cons_succ]
      exact ih _ j (by simpa using hi)

theorem schedStarts_ge_clock (c : ℚ) (chunks : List (ℚ × ℚ)) (i : ℕ)
    (hi : i < chunks.length) :
    (chunks.getD i (0, 0)).1 ≤ (schedStarts c chunks).getD i 0 := by
  induction chunks generalizing c i with
  | nil => simp at hi
  | cons td rest ih =>
    cases i with
    | zero =>
      simp only [schedStarts, handleAudioChunk, List.getD_cons_zero]
      exact le_max_right _ _
    | succ j =>
      simp only [schedStarts, List.getD_cons_succ]
      exact ih _ j (by simpa using hi)

theorem schedCursors_chain (c : ℚ) (chunks : List (ℚ × ℚ))
    (hd : ∀ td ∈ chunks, 0 ≤ td.2) :
    List.Chain' (fun a b => a ≤ b) (schedCursors c chunks) := by
  induction chunks generalizing c with
  | nil => simp [schedCursors]
  | cons td rest ih =>
    rw [schedCursors, List.chain'_cons']
    refine ⟨?_, ih _ fun x hx => hd x (List.mem_cons_of_mem _ hx)⟩
    intro y hy
    rw [schedCursors_head] at hy
    cases hy
    calc c ≤ max c td.1 := le_max_left _ _
      _ ≤ max c td.1 + td.2 :=
        le_add_of_nonneg_right (hd td (List.mem_cons_self _ _))

/-- **C1.** For every sequence of audio chunks delivered to the playback
message handler (each with the output clock's current time at the call and a
non-negative decoded duration), the scheduled start times overlap nowhere
(`start(i) + d(i) ≤ start(i+1)`), every start time — in particular the first —
is at least the clock's current time at the time of the call, and the
`nextStartTime` cursor is non-decreasing across the chunk sequence (the
explicit-interruption reset, which is the only exception, is the separate
`handleInterrupted` handler and delivers no chunk). -/
theorem playback_schedule_no_overlap_monotone (c : ℚ) (chunks : List (ℚ × ℚ))
    (hd : ∀ td ∈ chunks, 0 ≤ td.2) :
    (∀ i, i + 1 < chunks.length →
        (schedStarts c chunks).getD i 0 + (chunks.getD i (0, 0)).2 ≤
          (schedStarts c chunks).getD (i + 1) 0) ∧
    (∀ i, i < chunks.length →
        (chunks.getD i (0, 0)).1 ≤ (schedStarts c chunks).getD i 0) ∧
    List.Chain' (fun a b => a ≤ b) (schedCursors c chunks) :=
  ⟨fun i hi => schedStarts_no_overlap c chunks i hi,
   fun i hi => schedStarts_ge_clock c chunks i hi,
   schedCursors_chain c chunks hd⟩

/-- Witness for C1 at cursor `0` and the two-chunk sequence
`[(0, 1), (2, 3)]`. -/
theorem playback_schedule_no_overlap_monotone_witness :
    (∀ td ∈ [((0 : ℚ), (1 : ℚ)), (2, 3)], 0 ≤ td.2) ∧
    ((∀ i, i + 1 < ([((0 : ℚ), (1 : ℚ)), (2, 3)] : List (ℚ × ℚ)).length →
        (schedStarts 0 [((0 : ℚ), (1 : ℚ)), (2, 3)]).getD i 0 +
            (([((0 : ℚ), (1 : ℚ)), (2, 3)] : List (ℚ × ℚ)).getD i (0, 0)).2 ≤
          (schedStarts 0 [((0 : ℚ), (1 : ℚ)), (2, 3)]).getD (i + 1) 0) ∧
    (∀ i, i < ([((0 : ℚ), (1 : ℚ)), (2, 3)] : List (ℚ × ℚ)).length →
        (([((0 : ℚ), (1 : ℚ)), (2, 3)] : List (ℚ × ℚ)).getD i (0, 0)).1 ≤
          (schedStarts 0 [((0 : ℚ), (1 : ℚ)), (2, 3)]).getD i 0) ∧
    List.Chain' (fun a b => a ≤ b)
      (schedCursors 0 [((0 : ℚ), (1 : ℚ)), (2, 3)])) :=
  ⟨by decide,
   playback_schedule_no_overlap_monotone 0 [((0 : ℚ), (1 : ℚ)), (2, 3)]
     (by decide)⟩

/-- **C2.** After the interruption handler runs on any prior playback state,
every source that was active has had `stop()` called on it, the active-buffer
set is empty, the `nextStartTime` cursor equals `0`, and the
assistant-speaking flag is cleared. -/
theorem interrupted_resets_playback (st : PlaybackState) :
    (handleInterrupted st).2 = st.sources ∧
    (handleInterrupted st).1.sources = ∅ ∧
    (handleInterrupted st).1.nextStartTime = 0 ∧
    (handleInterrupted st).1.isJarvisSpeaking = false :=
  ⟨rfl, rfl, rfl, rfl⟩

/-- **C8.** On a buffer's end-of-playback event the finished source is removed
from the active set, the other sources are untouched, and the speaking flag
is cleared exactly when the resulting set is empty — when sources remain the
flag keeps its previous value (level-triggered on emptiness). -/
theorem ended_removes_source_level_triggered (st : PlaybackState) (sid : ℕ) :
    (handleEnded st sid).sources = st.sources.erase sid ∧
    sid ∉ (handleEnded st sid).sources ∧
    (∀ x ∈ st.sources, x ≠ sid → x ∈ (handleEnded st sid).sources) ∧
    (handleEnded st sid).isJarvisSpeaking =
      (if st.sources.erase sid = ∅ then false else st.isJarvisSpeaking) ∧
    (handleEnded st sid).nextStartTime = st.nextStartTime :=
  ⟨rfl, Finset.not_mem_erase _ _,
   fun _ hx hne => Finset.mem_erase.mpr ⟨hne, hx⟩, rfl, rfl⟩

theorem addLog_dropLast_suffix (logs : List LogEntry) (e : LogEntry) :
    (addLog logs e).dropLast <:+ logs := by
  rw [addLog, List.dropLast_concat]
  exact List.drop_suffix _ _

theorem addLog_getLast (logs : List LogEntry) (e : LogEntry) :
    (addLog logs e).getLast? = some e := by
  rw [addLog, List.getLast?_concat]

theorem addLog_length (logs : List LogEntry) (e : LogEntry) :
    (addLog logs e).length = min logs.length 30 + 1 := by
  rw [addLog, List.length_append, List.length_drop, List.length_singleton]
  omega

/-- **C9.** `addLog` appends the new entry at the end, the retained old
entries form a suffix of the previous log (relative order preserved, only
the oldest evicted), and the resulting length is `min |logs| 30 + 1`, hence
never exceeds the fixed cap 31 — which lies in the spec's 30–50 range. -/
theorem addLog_append_only_capped (logs : List LogEntry) (e : LogEntry) :
    (addLog logs e).dropLast <:+ logs ∧
    (addLog logs e).getLast? = some e ∧
    (addLog logs e).length = min logs.length 30 + 1 ∧
    (addLog logs e).length ≤ 31 :=
  ⟨addLog_dropLast_suffix logs e, addLog_getLast logs e, addLog_length logs e,
   by rw [addLog_length]; omega⟩

/-- **C4, counterexample.** A received transcription whose text is the
single space `" "` appends nothing: the log (empty before the message) is
still empty afterwards, so no entry with sender ASSISTANT and text `" "`
exists — refuting the claim for whitespace-only texts. -/
theorem transcription_space_text_not_logged :
    handleTranscription [] "id0" "00:00:00" " " = [] := by decide

/-- **C4, amended.** For every received message carrying an output
transcription whose text is non-blank (contains a non-whitespace character,
i.e. `text.trim()` is truthy — e.g. `"Good morning"`), a log entry with
sender ASSISTANT (`JARVIS`) and the untrimmed text is appended at the end of
the log; whitespace-only texts are dropped (see C10). -/
theorem transcription_nonblank_appends (logs : List LogEntry)
    (newId ts t : String) (h : hasContent t = true) :
    (handleTranscription logs newId ts t).getLast? =
      some { id := newId, timestamp := ts, sender := Sender.jarvis, text := t } ∧
    (handleTranscription logs newId ts t).dropLast <:+ logs := by
  rw [handleTranscription, if_pos h]
  exact ⟨addLog_getLast _ _, addLog_dropLast_suffix _ _⟩

/-- Witness for the amended C4 at the empty log and text `"Good morning"`. -/
theorem transcription_nonblank_appends_witness :
    hasContent "Good morning" = true ∧
    ((handleTranscription [] "id1" "08:00:00" "Good morning").getLast? =
        some { id := "id1", timestamp := "08:00:00", sender := Sender.jarvis,
               text := "Good morning" } ∧
      (handleTranscription [] "id1" "08:00:00" "Good morning").dropLast <:+
        ([] : List LogEntry)) :=
  ⟨by decide, transcription_nonblank_appends [] "id1" "08:00:00" "Good morning"
    (by decide)⟩

/-- **C10.** A received message whose output transcription text is empty or
consists only of whitespace (`text.trim()` falsy, i.e. no non-whitespace
character) appends no log entry: the log is unchanged.  Together with the
guard's positive branch this means an entry is appended only when the
trimmed text is non-empty. -/
theorem transcription_whitespace_only_dropped (logs : List LogEntry)
    (newId ts t : String) (h : hasContent t = false) :
    handleTranscription logs newId ts t = logs := by
  simp [handleTranscription, h]

/-- Witness for C10 at the text `" \t "` on a one-entry log. -/
theorem transcription_whitespace_only_dropped_witness :
    hasContent " \t " = false ∧
    handleTranscription
        [{ id := "a", timestamp := "b", sender := Sender.system, text := "c" }]
        "id2" "09:00:00" " \t " =
      [{ id := "a", timestamp := "b", sender := Sender.system, text := "c" }] :=
  ⟨by decide, transcription_whitespace_only_dropped _ "id2" "09:00:00" " \t "
    (by decide)⟩

/-- **C3, counterexample.** In the `Open` session state (`onopen` has run:
`isConnecting` is `false`, `isActive` is `true`) a further `startSession`
call is *not* a no-op: the guard checks only `isConnecting`, so the call
proceeds to a second connection attempt and changes the session state —
refuting the claimed idempotence for the `Open` state. -/
theorem start_in_open_state_attempts_connection :
    (startSessionEntry openState).2 = true ∧
    (startSessionEntry openState).1 ≠ openState := by decide

/-- **C3, amended.** Invoking `startSession` while the session is in the
`Connecting` state (`isConnecting` set) is a no-op: no second connection
attempt is made and the state is unchanged.  In the `Open` state the guard
does not apply — the function itself would attempt a second connection (the
UI merely hides the start control while active). -/
theorem start_while_connecting_noop (st : AppState)
    (h : st.isConnecting = true) :
    startSessionEntry st = (st, false) := by
  simp [startSessionEntry, h]

/-- Witness for the amended C3 at a concrete `Connecting` state. -/
theorem start_while_connecting_noop_witness :
    (⟨false, false, false, false, true, "CALIBRATING NEURAL LINK...", 0,
        false, 0⟩ : AppState).isConnecting = true ∧
    startSessionEntry
        ⟨false, false, false, false, true, "CALIBRATING NEURAL LINK...", 0,
          false, 0⟩ =
      (⟨false, false, false, false, true, "CALIBRATING NEURAL LINK...", 0,
          false, 0⟩, false) :=
  ⟨rfl, start_while_connecting_noop _ rfl⟩

/-- **C6, counterexample.** `stopSession` does not reset the next-start
playback cursor: from a state with `nextStartTime = 7` the cursor is still
`7` (not the claimed default `0`) after teardown — refuting the claim that
teardown resets volume, speaking flag *and* cursor to `(0, false, 0)`. -/
theorem stop_leaves_cursor_unreset :
    (stopSession ⟨true, true, true, true, false, "ONLINE", 1, true, 7⟩).1.nextStartTime
        = 7 ∧
    (stopSession ⟨true, true, true, true, false, "ONLINE", 1, true, 7⟩).1.nextStartTime
        ≠ 0 := by decide

/-- **C6, amended.** `stopSession`, called with all three resources present,
releases them in the order: close remote session handle, close capture audio
context, close playback audio context; it then resets the volume and the
speaking flag to their defaults (`0`, `false`) and clears the active and
connecting flags and the resource refs — but it leaves the next-start
playback cursor unchanged (it is *not* reset to `0`). -/
theorem stop_releases_in_order (st : AppState) (h1 : st.session = true)
    (h2 : st.ctxIn = true) (h3 : st.ctxOut = true) :
    (stopSession st).2 =
      [CloseEvent.closeSession, CloseEvent.closeCtxIn, CloseEvent.closeCtxOut] ∧
    (stopSession st).1.userVol = 0 ∧
    (stopSession st).1.isJarvisSpeaking = false ∧
    (stopSession st).1.isActive = false ∧
    (stopSession st).1.isConnecting = false ∧
    (stopSession st).1.session = false ∧
    (stopSession st).1.ctxIn = false ∧
    (stopSession st).1.ctxOut = false ∧
    (stopSession st).1.nextStartTime = st.nextStartTime := by
  simp [stopSession, h1, h2, h3]

/-- Witness for the amended C6 at a concrete fully-open state. -/
theorem stop_releases_in_order_witness :
    ((⟨true, true, true, true, false, "ONLINE", 1, true, 7⟩ : AppState).session = true ∧
      (⟨true, true, true, true, false, "ONLINE", 1, true, 7⟩ : AppState).ctxIn = true ∧
      (⟨true, true, true, true, false, "ONLINE", 1, true, 7⟩ : AppState).ctxOut = true) ∧
    ((stopSession ⟨true, true, true, true, false, "ONLINE", 1, true, 7⟩).2 =
        [CloseEvent.closeSession, CloseEvent.closeCtxIn, CloseEvent.closeCtxOut] ∧
      (stopSession ⟨true, true, true, true, false, "ONLINE", 1, true, 7⟩).1.userVol = 0 ∧
      (stopSession ⟨true, true, true, true, false, "ONLINE", 1, true, 7⟩).1.isJarvisSpeaking = false ∧
      (stopSession ⟨true, true, true, true, false, "ONLINE", 1, true, 7⟩).1.isActive = false ∧
      (stopSession ⟨true, true, true, true, false, "ONLINE", 1, true, 7⟩).1.isConnecting = false ∧
      (stopSession ⟨true, true, true, true, false, "ONLINE", 1, true, 7⟩).1.session = false ∧
      (stopSession ⟨true, true, true, true, false, "ONLINE", 1, true, 7⟩).1.ctxIn = false ∧
      (stopSession ⟨true, true, true, true, false, "ONLINE", 1, true, 7⟩).1.ctxOut = false ∧
      (stopSession ⟨true, true, true, true, false, "ONLINE", 1, true, 7⟩).1.nextStartTime =
        (⟨true, true, true, true, false, "ONLINE", 1, true, 7⟩ : AppState).nextStartTime) :=
  ⟨⟨rfl, rfl, rfl⟩, stop_releases_in_order _ rfl rfl rfl⟩

/-- **C7.** Calling `stopSession` in the `Idle`/closed state (all resource
refs null, local state at defaults) performs no `close()` call and leaves
the state unchanged; and from *any* state, a second `stopSession` right
after a first one performs no `close()` call and changes nothing — teardown
is safe to repeat, already-closed resources are simply skipped.  (The code
cannot throw here: every `close()` is behind an optional-chaining guard.) -/
theorem stop_idle_noop_idempotent (st st' : AppState) (h : IdleState st) :
    stopSession st = (st, []) ∧
    stopSession (stopSession st').1 = ((stopSession st').1, []) := by
  obtain ⟨h1, h2, h3, h4, h5, h6, h7, _h8⟩ := h
  constructor
  · cases st
    simp_all [stopSession]
  · cases st'
    simp [stopSession]

/-- Witness for C7 at the concrete standby state and an arbitrary open-ish
state for the double-stop part. -/
theorem stop_idle_noop_idempotent_witness :
    IdleState ⟨false, false, false, false, false, "SYSTEM STANDBY", 0, false, 0⟩ ∧
    (stopSession ⟨false, false, false, false, false, "SYSTEM STANDBY", 0, false, 0⟩ =
        (⟨false, false, false, false, false, "SYSTEM STANDBY", 0, false, 0⟩, []) ∧
      stopSession (stopSession ⟨true, false, true, false, true, "X", 2, true, 3⟩).1 =
        ((stopSession ⟨true, false, true, false, true, "X", 2, true, 3⟩).1, [])) :=
  ⟨by decide, stop_idle_noop_idempotent _ _ (by decide)⟩

theorem sumSq_replicate (n : ℕ) (A : ℝ) :
    sumSq (List.replicate n A) = n * (A * A) := by
  simp [sumSq, List.map_replicate, List.sum_replicate, nsmul_eq_mul]

/-- **C5.** The published loudness estimate is the root-mean-square of the
block scaled by the gain factor 15 and clamped to `[0, 1]`; it is `0` for an
all-zero block and `min(1, A·15)` for a constant block of amplitude
`A ≥ 0`. -/
theorem loudness_rms_clamped (n : ℕ) (A : ℝ) (hn : 0 < n) (hA : 0 ≤ A) :
    (∀ input : List ℝ,
        loudness input = min 1 (rms input * 15) ∧
        0 ≤ loudness input ∧ loudness input ≤ 1) ∧
    loudness (List.replicate n (0 : ℝ)) = 0 ∧
    loudness (List.replicate n A) = min 1 (A * 15) := by
  have hne : (n : ℝ) ≠ 0 := Nat.cast_ne_zero.mpr hn.ne'
  have key : ∀ B : ℝ, 0 ≤ B →
      loudness (List.replicate n B) = min 1 (B * 15) := by
    intro B hB
    rw [loudness, rms, List.length_replicate, sumSq_replicate,
      mul_div_cancel_left₀ _ hne, Real.sqrt_mul_self hB]
  refine ⟨fun input =>
    ⟨rfl, le_min zero_le_one (mul_nonneg (Real.sqrt_nonneg _) (by norm_num)),
      min_le_left _ _⟩, ?_, key A hA⟩
  rw [key 0 le_rfl]
  norm_num

/-- Witness for C5 at block length `1` and amplitude `1`. -/
theorem loudness_rms_clamped_witness :
    0 < 1 ∧ (0 : ℝ) ≤ 1 ∧
    ((∀ input : List ℝ,
        loudness input = min 1 (rms input * 15) ∧
        0 ≤ loudness input ∧ loudness input ≤ 1) ∧
      loudness (List.replicate 1 (0 : ℝ)) = 0 ∧
      loudness (List.replicate 1 (1 : ℝ)) = min 1 (1 * 15)) :=
  ⟨Nat.one_pos, zero_le_one, loudness_rms_clamped 1 1 Nat.one_pos zero_le_one⟩

end Jarvis
